import Mathlib

/-!
Verification of the caching resolver core of `trust-dns`
(`resolver/src/lookup_state.rs` and `proto/src/rr/dns_class.rs`),
as a shallow embedding in Lean 4.

Modelling conventions:
* `Instant` and `Duration` are modelled as natural numbers of seconds
  (`now + Duration::from_secs(ttl)` becomes `now + ttl`); TTLs are `u32`
  values modelled as `Nat` (the arithmetic performed on them — comparison
  and `min` — never overflows).
* The external `lru_cache::LruCache` crate is modelled as a capacity-bounded
  association list ordered most-recently-used first: `insert` places the
  entry at the front (evicting beyond capacity), `get_mut` promotes the
  entry to the front ("touch"), `remove` deletes it.
* Futures are modelled as already-resolved values, and the shared
  `Arc<Mutex<DnsLru>>` as an explicitly threaded `DnsLru` value plus a
  boolean "the try_lock succeeds" parameter; the lock-poisoning branch
  (a crashed previous holder) is not representable in this sequential
  embedding and is outside all claims considered here.
* `io::Error` values are modelled by an inductive carrying the same
  distinguishing data the code puts into them.
-/

/-! ### DNS classes (`proto/src/rr/dns_class.rs`) -/

/-- The DNS record class (`enum DNSClass`). -/
inductive DNSClass : Type where
  | IN
  | CH
  | HS
  | NONE
  | ANY
  | OPT (version : Nat)
deriving DecidableEq

/-- Error kinds produced by `dns_class.rs` (`ProtoErrorKind`), restricted to
the variants this file constructs. -/
inductive ProtoErrorKind : Type where
  | unknownDnsClassValue (value : Nat)
  | unknownDnsClassStr (s : String)
deriving DecidableEq

/-- `DNSClass::from_u16`: decode a class from its 16-bit wire value. -/
def DNSClass.from_u16 (value : Nat) : Except ProtoErrorKind DNSClass :=
  if value = 1 then .ok .IN
  else if value = 3 then .ok .CH
  else if value = 4 then .ok .HS
  else if value = 254 then .ok .NONE
  else if value = 255 then .ok .ANY
  else .error (.unknownDnsClassValue value)

/-- `impl From<DNSClass> for u16`: the wire value of a class. -/
def DNSClass.to_u16 : DNSClass → Nat
  | .IN => 1
  | .CH => 3
  | .HS => 4
  | .NONE => 254
  | .ANY => 255
  | .OPT version => version

/-! ### Records, queries, messages (collaborator data consumed by the core) -/

/-- DNS record types, as far as this core distinguishes them. -/
inductive RecordType : Type where
  | A
  | AAAA
  | CNAME
  | NS
  | SOA
  | TXT
deriving DecidableEq

/-- Record data payloads (`RData`), with the SOA variant carrying the fields
of a start-of-authority record (the core reads only `minimum`). -/
inductive RData : Type where
  | A (ip : Nat)
  | AAAA (ip : Nat)
  | CNAME (name : String)
  | NS (name : String)
  | SOA (mname rname : String) (serial refresh retryIv expire minimum : Nat)
  | TXT (txt : String)
deriving DecidableEq

/-- A resource record: owner name, record type, TTL and data. The record
type field and the `RData` constructor are independent, as in the source
(`Record::rr_type` versus `Record::unwrap_rdata`). -/
structure Record : Type where
  name : String
  rrType : RecordType
  ttl : Nat
  rdata : RData
deriving DecidableEq

/-- A query key: name, query type and query class. -/
structure Query : Type where
  name : String
  queryType : RecordType
  queryClass : DNSClass
deriving DecidableEq

/-- `Query::new()`: root name, type `A`, class `IN`. -/
def Query.new : Query := ⟨"", .A, .IN⟩

/-- Response status codes, as far as this core distinguishes them. -/
inductive ResponseCode : Type where
  | NoError
  | NXDomain
  | ServFail
  | Refused
  | FormErr
deriving DecidableEq

/-- An upstream response `Message`: status code, answer section and
authority section (`take_answers` / `take_name_servers`). -/
structure Message : Type where
  responseCode : ResponseCode
  answers : List Record
  nameServers : List Record
deriving DecidableEq

/-- An immutable lookup result: the shared `Arc<Vec<RData>>` inside
`Lookup`. -/
structure Lookup : Type where
  rdatas : List RData
deriving DecidableEq

/-- Client-side transport errors (`ClientError`), opaque to this core. -/
inductive ClientError : Type where
  | err (msg : String)
deriving DecidableEq

/-- The `io::Error` values this core constructs, keeping the data that
distinguishes them: `nx_error` carries the query, the `DNS Error` branch
carries the offending response code, and client errors are converted
via `From`. -/
inductive IoError : Type where
  | addrNotAvailable (query : Query)
  | dnsError (code : ResponseCode)
  | clientError (e : ClientError)
deriving DecidableEq

/-! ### The LRU cache collaborator (external `lru_cache` crate)

Modelled as an association list ordered most-recently-used first,
bounded by `capacity`. -/

/-- Association-list lookup on the entries of the cache. -/
def lookupEntry {K V : Type} [DecidableEq K] : List (K × V) → K → Option V
  | [], _ => none
  | (k', v) :: rest, k => if k' = k then some v else lookupEntry rest k

/-- Remove every entry for a key. -/
def removeKey {K V : Type} [DecidableEq K] : List (K × V) → K → List (K × V)
  | [], _ => []
  | (k', v) :: rest, k =>
    if k' = k then removeKey rest k else (k', v) :: removeKey rest k

/-- The external `LruCache`: bounded map, most-recently-used first. -/
structure LruCache (K V : Type) : Type where
  capacity : Nat
  entries : List (K × V)
deriving DecidableEq

/-- `LruCache::insert`: put the entry at the most-recent position
(replacing any previous entry for the key) and evict beyond capacity. -/
def LruCache.insert {K V : Type} [DecidableEq K]
    (c : LruCache K V) (k : K) (v : V) : LruCache K V :=
  ⟨c.capacity, (((k, v) :: removeKey c.entries k).take c.capacity)⟩

/-- The value stored for a key, if present and not evicted. -/
def LruCache.getEntry {K V : Type} [DecidableEq K]
    (c : LruCache K V) (k : K) : Option V :=
  lookupEntry c.entries k

/-- The promotion performed by `LruCache::get_mut`: move the entry for the
key to the most-recent position. -/
def LruCache.touch {K V : Type} [DecidableEq K]
    (c : LruCache K V) (k : K) : LruCache K V :=
  match lookupEntry c.entries k with
  | none => c
  | some v => ⟨c.capacity, (k, v) :: removeKey c.entries k⟩

/-- `LruCache::remove`. -/
def LruCache.remove {K V : Type} [DecidableEq K]
    (c : LruCache K V) (k : K) : LruCache K V :=
  ⟨c.capacity, removeKey c.entries k⟩

/-! ### The cache store (`DnsLru`) -/

/-- Maximum TTL as defined in RFC 2181 (`const MAX_TTL`). -/
def MAX_TTL : Nat := 2147483647

/-- A cache entry (`LruValue`): `lookup = none` represents a cached
NXDomain marker; `ttl_until` is the absolute expiry instant. -/
structure LruValue : Type where
  lookup : Option Lookup
  ttl_until : Nat
deriving DecidableEq

/-- `LruValue::is_current`: the entry is valid at `now` iff
`now <= ttl_until`. -/
def LruValue.is_current (v : LruValue) (now : Nat) : Bool :=
  now ≤ v.ttl_until

/-- The cache store: `struct DnsLru(LruCache<Query, LruValue>)`. -/
structure DnsLru : Type where
  cache : LruCache Query LruValue
deriving DecidableEq

/-- `DnsLru::new(capacity)`. -/
def DnsLru.new (capacity : Nat) : DnsLru := ⟨⟨capacity, []⟩⟩

/-- `DnsLru::insert`: collapse the per-record TTLs to their minimum by
folding from `MAX_TTL`, store a positive entry expiring at
`now + min_ttl`, and return the built `Lookup`. -/
def DnsLru.insert (lru : DnsLru) (query : Query)
    (rdatas_and_ttl : List (RData × Nat)) (now : Nat) : Lookup × DnsLru :=
  let folded :=
    rdatas_and_ttl.foldl
      (fun acc p => (acc.1 ++ [p.1], if p.2 < acc.2 then p.2 else acc.2))
      (([] : List RData), MAX_TTL)
  let ttl_until := now + folded.2
  let lookup : Lookup := ⟨folded.1⟩
  (lookup, ⟨lru.cache.insert query ⟨some lookup, ttl_until⟩⟩)

/-- `DnsLru::nx_error`: the "does not exist" error tagged with the query. -/
def DnsLru.nx_error (query : Query) : IoError :=
  .addrNotAvailable query

/-- `DnsLru::negative`: store a negative entry (`lookup = none`) expiring
at `now + ttl` and return the "does not exist" error. -/
def DnsLru.negative (lru : DnsLru) (query : Query) (ttl : Nat) (now : Nat) :
    IoError × DnsLru :=
  let ttl_until := now + ttl
  (DnsLru.nx_error query, ⟨lru.cache.insert query ⟨none, ttl_until⟩⟩)

/-- `DnsLru::get`: return the stored lookup of a current entry (touching
it in the LRU order); eagerly remove an expired entry and report a miss.
A current negative entry yields `none` without being removed. -/
def DnsLru.get (lru : DnsLru) (query : Query) (now : Nat) :
    Option Lookup × DnsLru :=
  match lru.cache.getEntry query with
  | none => (none, lru)
  | some value =>
    if value.is_current now then
      (value.lookup, ⟨lru.cache.touch query⟩)
    else
      (none, ⟨lru.cache.remove query⟩)

/-! ### The response classifier (`QueryFuture`) -/

/-- Classification of an upstream response (`enum Records`). -/
inductive Records : Type where
  | Exists (records : List (RData × Nat))
  | NoData (ttl : Option Nat)
deriving DecidableEq

namespace QueryFuture

/-- `QueryFuture::handle_nxdomain`: when the caller vouches for the NSEC
validation (`valid_nsec`) or the client is not DNSSEC-validating, take the
negative-caching TTL from the `minimum` field of the first SOA record of
the authority section (none when absent); otherwise refuse a TTL. -/
def handle_nxdomain (dnssec : Bool) (message : Message) (valid_nsec : Bool) :
    Records :=
  if valid_nsec || !dnssec then
    let soa := message.nameServers.find? (fun r => r.rrType = RecordType.SOA)
    let ttl :=
      match soa.map Record.rdata with
      | some (RData.SOA _ _ _ _ _ _ minimum) => some minimum
      | _ => none
    .NoData ttl
  else
    .NoData none

/-- `QueryFuture::handle_noerror`: keep the answer records whose record
type matches the query's requested type, each with its own TTL; when none
remain, fall back to `handle_nxdomain` with `valid_nsec = true`. -/
def handle_noerror (query : Query) (dnssec : Bool) (message : Message) :
    Records :=
  let records :=
    message.answers.filterMap
      (fun r =>
        let ttl := r.ttl
        if query.queryType = r.rrType then some (r.rdata, ttl) else none)
  if !records.isEmpty then
    .Exists records
  else
    handle_nxdomain dnssec message true

/-- The resolved branch of `impl Future for QueryFuture`: dispatch on the
response status (`NXDomain` with `valid_nsec = false`, `NoError`, anything
else a hard error). -/
def pollReady (dnssec : Bool) (query : Query) (message : Message) :
    Except IoError Records :=
  match message.responseCode with
  | .NXDomain => .ok (handle_nxdomain dnssec message false)
  | .NoError => .ok (handle_noerror query dnssec message)
  | r => .error (.dnsError r)

end QueryFuture

/-! ### The lookup state machine (`QueryState` and its sub-futures) -/

/-- Poll outcomes of a future of item `α` over `io::Error`:
`Ok(Async::Ready)`, `Ok(Async::NotReady)`, `Err`, or a `panic!`. -/
inductive PollOutcome (α : Type) : Type where
  | ready (a : α)
  | notReady
  | err (e : IoError)
  | panicked
deriving DecidableEq

/-- `impl Future for FromCache`: under the lock, read the cache; a failed
`try_lock` yields `NotReady` (after re-arming the task). -/
def FromCache.poll (lockFree : Bool) (query : Query) (lru : DnsLru)
    (now : Nat) : PollOutcome (Option Lookup) × DnsLru :=
  if lockFree then
    let (res, lru') := lru.get query now
    (.ready res, lru')
  else
    (.notReady, lru)

/-- `impl Future for InsertCache`: under the lock, dispatch on the
classification (`Exists` → positive insert, `NoData(Some ttl)` → negative
insert, `NoData(None)` → plain error without caching). The state's `query`
and `rdatas` are replaced by `Query::new()` / `NoData(None)` before the
dispatch, as by `mem::replace` in the source; the function returns the
outcome, the replaced-out state fields, and the cache. -/
def InsertCache.poll (lockFree : Bool) (rdatas : Records) (query : Query)
    (lru : DnsLru) (now : Nat) :
    PollOutcome Lookup × (Records × Query) × DnsLru :=
  if lockFree then
    match rdatas with
    | .Exists rdata =>
      let (lookup, lru') := lru.insert query rdata now
      (.ready lookup, (.NoData none, Query.new), lru')
    | .NoData (some ttl) =>
      let (e, lru') := lru.negative query ttl now
      (.err e, (.NoData none, Query.new), lru')
    | .NoData none =>
      (.err (DnsLru.nx_error query), (.NoData none, Query.new), lru)
  else
    (.notReady, (rdatas, query), lru)

instance {ε α : Type} [DecidableEq ε] [DecidableEq α] :
    DecidableEq (Except ε α)
  | .ok a, .ok b =>
    if h : a = b then .isTrue (by rw [h])
    else .isFalse (fun hh => h (Except.ok.inj hh))
  | .ok _, .error _ => .isFalse (fun h => Except.noConfusion h)
  | .error _, .ok _ => .isFalse (fun h => Except.noConfusion h)
  | .error a, .error b =>
    if h : a = b then .isTrue (by rw [h])
    else .isFalse (fun hh => h (Except.error.inj hh))

/-- The states of `enum QueryState`. The `query` state carries the already
issued upstream response in place of the `message_future`, together with
the `dnssec` flag recorded at issue time. -/
inductive QueryState : Type where
  | fromCache (query : Query)
  | query (query : Query) (dnssec : Bool)
      (response : Except ClientError Message)
  | insertCache (rdatas : Records) (query : Query)
  | error
deriving DecidableEq

/-- The mock of a `ClientHandle`: a deterministic response per query plus
the `is_verifying_dnssec` flag. -/
structure MockClient : Type where
  response : Query → Except ClientError Message
  verifyingDnssec : Bool

/-- The machine configuration driven by `QueryState::poll`: the current
state, the shared cache, and how many times `client.lookup` was called. -/
structure PollState : Type where
  state : QueryState
  lru : DnsLru
  upstreamCalls : Nat
deriving DecidableEq

/-- One round of `impl Future for QueryState::poll`: poll the current
sub-future, then perform the transition (`query_after_cache`, which calls
`client.lookup`, or `cache`) and yield, exactly as the two-phase match of
the source. -/
def QueryState.pollStep (client : MockClient) (lockFree : Bool) (now : Nat)
    (ps : PollState) : PollOutcome Lookup × PollState :=
  match ps.state with
  | .fromCache q =>
    match FromCache.poll lockFree q ps.lru now with
    | (.ready (some ips), lru') => (.ready ips, { ps with lru := lru' })
    | (.ready none, lru') =>
      -- query_after_cache: the upstream query is issued here
      (.notReady,
        { state := .query q client.verifyingDnssec (client.response q),
          lru := lru',
          upstreamCalls := ps.upstreamCalls + 1 })
    | (.notReady, lru') => (.notReady, { ps with lru := lru' })
    | (.err e, lru') => (.err e, { ps with lru := lru' })
    | (.panicked, lru') => (.panicked, { ps with lru := lru' })
  | .query q dnssec resp =>
    match resp with
    | .error e => (.err (.clientError e), ps)
    | .ok message =>
      match QueryFuture.pollReady dnssec q message with
      | .error e => (.err e, ps)
      | .ok rdatas => (.notReady, { ps with state := .insertCache rdatas q })
  | .insertCache rdatas q =>
    match InsertCache.poll lockFree rdatas q ps.lru now with
    | (out, (rdatas', q'), lru') =>
      (out, { state := .insertCache rdatas' q', lru := lru',
              upstreamCalls := ps.upstreamCalls })
  | .error => (.panicked, ps)

/-! ### Spec-side characterisations

These restate parts of the specification's language independently of the
embedded code, to be compared with it. -/

/-- The specification's negative-TTL extraction: the `minimum` field of the
first SOA record of the authority section, if any. -/
def soaMinimum (message : Message) : Option Nat :=
  match (message.nameServers.filter (fun r => r.rrType = RecordType.SOA)).head? with
  | some r =>
    match r.rdata with
    | RData.SOA _ _ _ _ _ _ minimum => some minimum
    | _ => none
  | none => none

/-- The plain minimum of a list of TTLs (`min(ttls)` in the specification's
wording; junk value on the empty list, which the specification excludes). -/
def minTtlOf : List Nat → Nat
  | [] => 0
  | t :: ts => ts.foldl Nat.min t

/-! ### Helper lemmas -/

theorem if_lt_eq_min (a b : Nat) : (if b < a then b else a) = Nat.min a b := by
  have h1 : Nat.min a b = min a b := rfl
  rw [h1]
  split <;> omega

theorem nat_min_assoc (x y z : Nat) :
    Nat.min (Nat.min x y) z = Nat.min x (Nat.min y z) := by
  have h1 : ∀ a b : Nat, Nat.min a b = min a b := fun _ _ => rfl
  simp only [h1]
  omega

theorem insert_fold_eq (pairs : List (RData × Nat)) (acc : List RData) (m : Nat) :
    pairs.foldl
      (fun acc p => (acc.1 ++ [p.1], if p.2 < acc.2 then p.2 else acc.2))
      (acc, m)
    = (acc ++ pairs.map Prod.fst, (pairs.map Prod.snd).foldl Nat.min m) := by
  induction pairs generalizing acc m with
  | nil => simp
  | cons p rest ih =>
    rw [List.map_cons, List.map_cons, List.foldl_cons, List.foldl_cons, ih,
      if_lt_eq_min]
    simp

theorem foldl_min_comm (l : List Nat) (a b : Nat) :
    l.foldl Nat.min (Nat.min a b) = Nat.min a (l.foldl Nat.min b) := by
  induction l generalizing b with
  | nil => rfl
  | cons c rest ih =>
    simp only [List.foldl_cons]
    rw [nat_min_assoc, ih]

theorem lookupEntry_removeKey {K V : Type} [DecidableEq K]
    (l : List (K × V)) (k : K) : lookupEntry (removeKey l k) k = none := by
  induction l with
  | nil => rfl
  | cons e rest ih =>
    by_cases h : e.1 = k <;> simp [removeKey, lookupEntry, h, ih]

theorem getEntry_insert_self {K V : Type} [DecidableEq K]
    (c : LruCache K V) (k : K) (v : V) (hcap : 0 < c.capacity) :
    (c.insert k v).getEntry k = some v := by
  rcases c with ⟨cap, entries⟩
  cases cap with
  | zero => simp at hcap
  | succ n => simp [LruCache.insert, LruCache.getEntry, lookupEntry]

theorem getEntry_touch {K V : Type} [DecidableEq K]
    (c : LruCache K V) (k : K) (v : V) (h : c.getEntry k = some v) :
    (c.touch k).getEntry k = some v := by
  unfold LruCache.touch
  unfold LruCache.getEntry at h ⊢
  rw [h]
  simp [lookupEntry]

theorem find?_eq_head?_filter {α : Type} (p : α → Bool) (l : List α) :
    l.find? p = (l.filter p).head? := by
  induction l with
  | nil => rfl
  | cons x xs ih =>
    cases h : p x with
    | true =>
      rw [List.find?_cons_of_pos _ h, List.filter_cons_of_pos h]
      rfl
    | false =>
      rw [List.find?_cons_of_neg _ (by simp [h]),
        List.filter_cons_of_neg (by simp [h])]
      exact ih

theorem filterMap_guard_eq_map_filter {α β : Type}
    (p : α → Prop) [DecidablePred p] (f : α → β) (l : List α) :
    l.filterMap (fun a => if p a then some (f a) else none)
      = (l.filter (fun a => decide (p a))).map f := by
  induction l with
  | nil => rfl
  | cons x xs ih =>
    by_cases h : p x <;> simp [List.filterMap_cons, List.filter_cons, h, ih]

/-- What `DnsLru::insert` stores and returns, in closed form: the datums in
order, and the expiry `now` plus the `Nat.min`-fold of the TTLs from
`MAX_TTL`. -/
theorem DnsLru.insert_spec (lru : DnsLru) (q : Query)
    (pairs : List (RData × Nat)) (now : Nat) (hcap : 0 < lru.cache.capacity) :
    (lru.insert q pairs now).1.rdatas = pairs.map Prod.fst ∧
    (lru.insert q pairs now).2.cache.getEntry q
      = some ⟨some (lru.insert q pairs now).1,
              now + (pairs.map Prod.snd).foldl Nat.min MAX_TTL⟩ := by
  unfold DnsLru.insert
  rw [insert_fold_eq]
  exact ⟨rfl, getEntry_insert_self _ _ _ hcap⟩

/-- `handle_nxdomain` in the honoring branch extracts exactly the
specification's first-SOA minimum. -/
theorem handle_nxdomain_honored (dnssec valid_nsec : Bool) (message : Message)
    (hcond : (valid_nsec || !dnssec) = true) :
    QueryFuture.handle_nxdomain dnssec message valid_nsec
      = Records.NoData (soaMinimum message) := by
  unfold QueryFuture.handle_nxdomain soaMinimum
  rw [find?_eq_head?_filter, if_pos hcond]
  cases h : (message.nameServers.filter (fun r => r.rrType = RecordType.SOA)).head? with
  | none => simp [h]
  | some r => cases hr : r.rdata <;> simp [h, hr]

/-- The shape of `DnsLru::get` once the stored entry is known. -/
theorem DnsLru.get_of_entry (lru : DnsLru) (query : Query) (now : Nat)
    (v : LruValue) (h : lru.cache.getEntry query = some v) :
    lru.get query now
      = if v.is_current now then (v.lookup, ⟨lru.cache.touch query⟩)
        else (none, ⟨lru.cache.remove query⟩) := by
  unfold DnsLru.get
  rw [h]

/-! ### Concrete inputs used by counterexamples and witnesses -/

def exQuery : Query := ⟨"www.example.com.", .A, .IN⟩

def exSoaRecord : Record :=
  ⟨"example.com.", .SOA, 3600,
    .SOA "a.iana-servers.net." "hostmaster.example.com." 1 7200 3600 1209600 300⟩

def exMsgNoErrorSoa : Message := ⟨.NoError, [], [exSoaRecord]⟩

def exMsgNxSoa : Message := ⟨.NXDomain, [], [exSoaRecord]⟩

def exARecord : Record := ⟨"www.example.com.", .A, 86400, .A 2130706433⟩

def exMsgA : Message := ⟨.NoError, [exARecord], []⟩

def exNegLru : DnsLru := ((DnsLru.new 1).negative exQuery 10 0).2

def exErrClient : MockClient := ⟨fun _ => .error (.err "upstream queried"), false⟩

/-! ### Claims -/

/-- Claim C1, evaluation of the code at the failing input. A negative
entry for `exQuery` (TTL 10, inserted at time 0) is still current at time
5, yet one poll of a fresh state machine in the `FromCache` state (lock
free) does not terminate with the "does not exist" error: `DnsLru::get`
surfaces the current negative entry as `none`, so the machine treats it as
a cache miss, transitions to the `Query` state and calls `client.lookup`
(the upstream-call counter rises from 0 to 1). -/
theorem negative_cache_hit_still_queries_upstream :
    exNegLru.cache.getEntry exQuery = some ⟨none, 10⟩ ∧
    QueryState.pollStep exErrClient true 5 ⟨.fromCache exQuery, exNegLru, 0⟩
      = (.notReady,
          ⟨.query exQuery false (.error (.err "upstream queried")),
            exNegLru, 1⟩) := by
  decide

/-- Claim C2, counterexample. A success response with an empty answer
section and an SOA record (minimum 300) in the authority section,
classified for a DNSSEC-validating client (`dnssec = true`), yields
`NoData (some 300)` — not `NoData none` as the claim states: the code
passes `valid_nsec = true` on this path, so the SOA minimum is honored
even in validating mode. -/
theorem noerror_empty_validating_returns_soa_ttl :
    exMsgNoErrorSoa.responseCode = ResponseCode.NoError ∧
    exMsgNoErrorSoa.answers = [] ∧
    QueryFuture.pollReady true exQuery exMsgNoErrorSoa
      = .ok (.NoData (some 300)) ∧
    Records.NoData (some 300) ≠ Records.NoData none := by
  decide

/-- Claim C2 as amended: for every success response whose answer section
has no record of the requested type, the classifier returns `NoData` with
the authority section's first-SOA minimum (none if no SOA) — for every
client, validating or not; the `dnssec` flag has no effect on this path. -/
theorem noerror_empty_soa_minimum_any_mode (query : Query) (dnssec : Bool)
    (msg : Message) (hrc : msg.responseCode = .NoError)
    (hempty : msg.answers.filter (fun r => query.queryType = r.rrType) = []) :
    QueryFuture.pollReady dnssec query msg
      = .ok (.NoData (soaMinimum msg)) := by
  have h1 : QueryFuture.pollReady dnssec query msg
      = .ok (QueryFuture.handle_noerror query dnssec msg) := by
    unfold QueryFuture.pollReady
    rw [hrc]
  rw [h1]
  simp only [QueryFuture.handle_noerror]
  have h2 := filterMap_guard_eq_map_filter
    (fun r => query.queryType = r.rrType) (fun r => (r.rdata, r.ttl)) msg.answers
  rw [h2, hempty]
  simp [handle_nxdomain_honored]

theorem noerror_empty_soa_minimum_any_mode_witness :
    (exMsgNoErrorSoa.responseCode = ResponseCode.NoError ∧
      exMsgNoErrorSoa.answers.filter
        (fun r => exQuery.queryType = r.rrType) = []) ∧
    QueryFuture.pollReady true exQuery exMsgNoErrorSoa
      = .ok (.NoData (soaMinimum exMsgNoErrorSoa)) :=
  ⟨⟨by decide, by decide⟩,
    noerror_empty_soa_minimum_any_mode exQuery true exMsgNoErrorSoa
      (by decide) (by decide)⟩

/-- Claim C3, counterexample. For an NXDomain response carrying an SOA
record with minimum 300 in its authority section, a DNSSEC-validating
client (`dnssec = true`) gets `NoData none`, not `NoData (some 300)` as
the claim predicts for every client: the code passes `valid_nsec = false`
here, so validating clients never receive a negative TTL from NXDomain. -/
theorem nxdomain_validating_ignores_soa :
    exMsgNxSoa.responseCode = ResponseCode.NXDomain ∧
    exMsgNxSoa.nameServers.filter (fun r => r.rrType = RecordType.SOA) ≠ [] ∧
    QueryFuture.pollReady true exQuery exMsgNxSoa = .ok (.NoData none) ∧
    Records.NoData none ≠ Records.NoData (some 300) := by
  decide

/-- Claim C3 as amended: for every NXDomain response, a non-validating
client gets `NoData` with the first SOA record's minimum from the
authority section (none when absent), while a DNSSEC-validating client
always gets `NoData none` (NXDomain is never cached in validating mode). -/
theorem nxdomain_soa_minimum_unless_validating (dnssec : Bool)
    (query : Query) (msg : Message) (hrc : msg.responseCode = .NXDomain) :
    QueryFuture.pollReady dnssec query msg
      = .ok (.NoData (if dnssec then none else soaMinimum msg)) := by
  have h1 : QueryFuture.pollReady dnssec query msg
      = .ok (QueryFuture.handle_nxdomain dnssec msg false) := by
    unfold QueryFuture.pollReady
    rw [hrc]
  rw [h1]
  cases dnssec with
  | true => simp [QueryFuture.handle_nxdomain]
  | false => simp [handle_nxdomain_honored]

theorem nxdomain_soa_minimum_unless_validating_witness :
    (exMsgNxSoa.responseCode = ResponseCode.NXDomain) ∧
    QueryFuture.pollReady false exQuery exMsgNxSoa
      = .ok (.NoData (if false then none else soaMinimum exMsgNxSoa)) :=
  ⟨by decide,
    nxdomain_soa_minimum_unless_validating false exQuery exMsgNxSoa (by decide)⟩

/-- Claim C4, counterexample. Inserting the single pair
`(A 127.0.0.1, ttl = 4294967295)` (a valid u32 TTL) at time 0 stores the
entry with expiry `MAX_TTL = 2147483647`, not `now + min(ttls)`: the fold
starts from `MAX_TTL`, so TTLs above the RFC 2181 ceiling are capped. -/
theorem insert_expiry_capped_above_max_ttl :
    ((DnsLru.new 1).insert exQuery [(RData.A 2130706433, 4294967295)] 0).2.cache.getEntry
        exQuery
      ≠ some ⟨some ⟨[RData.A 2130706433]⟩, 0 + minTtlOf [4294967295]⟩ ∧
    ((DnsLru.new 1).insert exQuery [(RData.A 2130706433, 4294967295)] 0).2.cache.getEntry
        exQuery
      = some ⟨some ⟨[RData.A 2130706433]⟩,
          0 + Nat.min MAX_TTL (minTtlOf [4294967295])⟩ := by
  constructor
  · decide
  · decide

/-- Claim C4 as amended: for all non-empty sets of (record, ttl) pairs
inserted for a key at time `now`, the stored entry's expiry equals
`now + min(MAX_TTL, min(ttls))` — the plain minimum of the TTLs capped at
the RFC 2181 ceiling 2147483647; in particular, inserting `{ttl=1, ttl=2}`
at `now` yields an entry still current at `now+1` and no longer current at
`now+2` (the witness checks this instance). -/
theorem insert_expiry_eq_min_ttls_capped (lru : DnsLru) (q : Query)
    (pairs : List (RData × Nat)) (now : Nat)
    (hcap : 0 < lru.cache.capacity) (hne : pairs ≠ []) :
    (lru.insert q pairs now).2.cache.getEntry q
      = some ⟨some (lru.insert q pairs now).1,
          now + Nat.min MAX_TTL (minTtlOf (pairs.map Prod.snd))⟩ := by
  rcases pairs with _ | ⟨p, rest⟩
  · exact absurd rfl hne
  · have h := (DnsLru.insert_spec lru q (p :: rest) now hcap).2
    rw [h]
    have hmin : ((p :: rest).map Prod.snd).foldl Nat.min MAX_TTL
        = Nat.min MAX_TTL (minTtlOf ((p :: rest).map Prod.snd)) := by
      simp only [List.map_cons, minTtlOf, List.foldl_cons]
      exact foldl_min_comm _ MAX_TTL p.2
    rw [hmin]

theorem insert_expiry_eq_min_ttls_capped_witness :
    (0 < (DnsLru.new 1).cache.capacity ∧
      ([(RData.A 2130706433, 1), (RData.A 2130706434, 2)] :
        List (RData × Nat)) ≠ []) ∧
    ((DnsLru.new 1).insert exQuery
        [(RData.A 2130706433, 1), (RData.A 2130706434, 2)] 0).2.cache.getEntry
        exQuery
      = some ⟨some ((DnsLru.new 1).insert exQuery
            [(RData.A 2130706433, 1), (RData.A 2130706434, 2)] 0).1,
          0 + Nat.min MAX_TTL (minTtlOf
            ([(RData.A 2130706433, 1), (RData.A 2130706434, 2)].map Prod.snd))⟩ ∧
    LruValue.is_current
        ⟨some ⟨[RData.A 2130706433, RData.A 2130706434]⟩,
          0 + Nat.min MAX_TTL (minTtlOf [1, 2])⟩ 1 = true ∧
    LruValue.is_current
        ⟨some ⟨[RData.A 2130706433, RData.A 2130706434]⟩,
          0 + Nat.min MAX_TTL (minTtlOf [1, 2])⟩ 2 = false :=
  ⟨⟨by decide, by decide⟩,
    insert_expiry_eq_min_ttls_capped (DnsLru.new 1) exQuery
      [(RData.A 2130706433, 1), (RData.A 2130706434, 2)] 0
      (by decide) (by decide),
    by decide, by decide⟩

/-- Claim C5: for every (non-empty) sequence of (datum, TTL) pairs,
`DnsLru::insert` computes `min_ttl` as the minimum of the TTLs folded from
the starting value 2147483647, stores a positive entry with
`ttl_until = now + min_ttl`, and returns a lookup holding exactly the
input datums in their original order. -/
theorem insert_stores_min_ttl_entry_in_order (lru : DnsLru) (q : Query)
    (pairs : List (RData × Nat)) (now : Nat)
    (hcap : 0 < lru.cache.capacity) (hne : pairs ≠ []) :
    (lru.insert q pairs now).1.rdatas = pairs.map Prod.fst ∧
    (lru.insert q pairs now).2.cache.getEntry q
      = some ⟨some (lru.insert q pairs now).1,
          now + (pairs.map Prod.snd).foldl Nat.min MAX_TTL⟩ :=
  DnsLru.insert_spec lru q pairs now hcap

theorem insert_stores_min_ttl_entry_in_order_witness :
    (0 < (DnsLru.new 1).cache.capacity ∧
      ([(RData.A 2130706433, 1), (RData.A 2130706434, 2)] :
        List (RData × Nat)) ≠ []) ∧
    (((DnsLru.new 1).insert exQuery
        [(RData.A 2130706433, 1), (RData.A 2130706434, 2)] 0).1.rdatas
      = [(RData.A 2130706433, 1), (RData.A 2130706434, 2)].map Prod.fst ∧
    ((DnsLru.new 1).insert exQuery
        [(RData.A 2130706433, 1), (RData.A 2130706434, 2)] 0).2.cache.getEntry
        exQuery
      = some ⟨some ((DnsLru.new 1).insert exQuery
            [(RData.A 2130706433, 1), (RData.A 2130706434, 2)] 0).1,
          0 + ([(RData.A 2130706433, 1),
            (RData.A 2130706434, 2)].map Prod.snd).foldl Nat.min MAX_TTL⟩) :=
  ⟨⟨by decide, by decide⟩,
    insert_stores_min_ttl_entry_in_order (DnsLru.new 1) exQuery
      [(RData.A 2130706433, 1), (RData.A 2130706434, 2)] 0
      (by decide) (by decide)⟩

/-- Claim C6: for every entry stored by `insert` with expiry `ttl_until`,
`get(key, t)` returns the cached lookup for every `t ≤ ttl_until`
(including equality), and for `t > ttl_until` it reports a miss and
removes the entry from the store. -/
theorem get_entry_until_expiry_then_evict (lru : DnsLru) (q : Query)
    (pairs : List (RData × Nat)) (now t : Nat)
    (hcap : 0 < lru.cache.capacity) :
    (t ≤ now + (pairs.map Prod.snd).foldl Nat.min MAX_TTL →
      ((lru.insert q pairs now).2.get q t).1
        = some (lru.insert q pairs now).1) ∧
    (now + (pairs.map Prod.snd).foldl Nat.min MAX_TTL < t →
      ((lru.insert q pairs now).2.get q t).1 = none ∧
      ((lru.insert q pairs now).2.get q t).2.cache.getEntry q = none) := by
  have h := (DnsLru.insert_spec lru q pairs now hcap).2
  constructor
  · intro ht
    rw [DnsLru.get_of_entry _ _ _ _ h,
      if_pos (by simpa [LruValue.is_current] using ht)]
  · intro ht
    rw [DnsLru.get_of_entry _ _ _ _ h,
      if_neg (by simp [LruValue.is_current]; omega)]
    exact ⟨rfl, by simp [LruCache.remove, LruCache.getEntry, lookupEntry_removeKey]⟩

theorem get_entry_until_expiry_then_evict_witness :
    (0 < (DnsLru.new 1).cache.capacity ∧
      (1 : Nat) ≤ 0 + ([((RData.A 2130706433 : RData), (1 : Nat))].map
        Prod.snd).foldl Nat.min MAX_TTL ∧
      0 + ([((RData.A 2130706433 : RData), (1 : Nat))].map
        Prod.snd).foldl Nat.min MAX_TTL < 2) ∧
    (((DnsLru.new 1).insert exQuery [(RData.A 2130706433, 1)] 0).2.get
        exQuery 1).1
      = some ((DnsLru.new 1).insert exQuery [(RData.A 2130706433, 1)] 0).1 ∧
    (((DnsLru.new 1).insert exQuery [(RData.A 2130706433, 1)] 0).2.get
        exQuery 2).1 = none ∧
    (((DnsLru.new 1).insert exQuery [(RData.A 2130706433, 1)] 0).2.get
        exQuery 2).2.cache.getEntry exQuery = none :=
  ⟨⟨by decide, by decide, by decide⟩,
    (get_entry_until_expiry_then_evict (DnsLru.new 1) exQuery
      [(RData.A 2130706433, 1)] 0 1 (by decide)).1 (by decide),
    (get_entry_until_expiry_then_evict (DnsLru.new 1) exQuery
      [(RData.A 2130706433, 1)] 0 2 (by decide)).2 (by decide)⟩

/-- Claim C7: for every success response, the classifier keeps exactly the
answer-section records whose type equals the query's requested type, in
answer-section order, and when non-empty returns `Exists` pairing each
kept record's data with that record's own TTL. -/
theorem noerror_keeps_matching_records_in_order (query : Query)
    (dnssec : Bool) (msg : Message) (hrc : msg.responseCode = .NoError)
    (hne : msg.answers.filter (fun r => query.queryType = r.rrType) ≠ []) :
    QueryFuture.pollReady dnssec query msg
      = .ok (.Exists ((msg.answers.filter
          (fun r => query.queryType = r.rrType)).map
            (fun r => (r.rdata, r.ttl)))) := by
  have h1 : QueryFuture.pollReady dnssec query msg
      = .ok (QueryFuture.handle_noerror query dnssec msg) := by
    unfold QueryFuture.pollReady
    rw [hrc]
  rw [h1]
  simp only [QueryFuture.handle_noerror]
  have h2 := filterMap_guard_eq_map_filter
    (fun r => query.queryType = r.rrType) (fun r => (r.rdata, r.ttl)) msg.answers
  rw [h2]
  have h3 : ((msg.answers.filter
      (fun r => query.queryType = r.rrType)).map
        (fun r => (r.rdata, r.ttl))).isEmpty = false := by
    rcases hf : msg.answers.filter (fun r => query.queryType = r.rrType) with
      _ | ⟨a, l⟩
    · exact absurd hf hne
    · rw [hf]
      rfl
  rw [h3]
  rfl

theorem noerror_keeps_matching_records_in_order_witness :
    (exMsgA.responseCode = ResponseCode.NoError ∧
      exMsgA.answers.filter (fun r => exQuery.queryType = r.rrType) ≠ []) ∧
    QueryFuture.pollReady false exQuery exMsgA
      = .ok (.Exists ((exMsgA.answers.filter
          (fun r => exQuery.queryType = r.rrType)).map
            (fun r => (r.rdata, r.ttl)))) :=
  ⟨⟨by decide, by decide⟩,
    noerror_keeps_matching_records_in_order exQuery false exMsgA
      (by decide) (by decide)⟩

/-- Claim C8: when `InsertCache` carries `NoData(None)` and the lock is
available, polling terminates with the "does not exist" error and leaves
the cache store exactly as it was — no entry is inserted or removed for
any key (the returned store is the input store itself). -/
theorem insertCache_nodata_none_no_write (q : Query) (lru : DnsLru)
    (now : Nat) :
    InsertCache.poll true (.NoData none) q lru now
      = (.err (DnsLru.nx_error q), (.NoData none, Query.new), lru) := rfl

/-- Claim C9: a still-current cached negative entry (`lookup = none`,
`t ≤ ttl_until`) makes `DnsLru::get` return `none` — the same value an
absent key yields, so a cached negative is indistinguishable from a miss
at this interface — while the entry stays in the store (only promoted in
the LRU order, never removed). -/
theorem get_current_negative_is_miss_without_evict (lru : DnsLru)
    (q : Query) (u t : Nat)
    (h : lru.cache.getEntry q = some ⟨none, u⟩) (ht : t ≤ u) :
    (lru.get q t).1 = none ∧
    (lru.get q t).2.cache.getEntry q = some ⟨none, u⟩ := by
  rw [DnsLru.get_of_entry lru q t _ h,
    if_pos (by simpa [LruValue.is_current] using ht)]
  exact ⟨rfl, getEntry_touch _ _ _ h⟩

theorem get_current_negative_is_miss_without_evict_witness :
    (exNegLru.cache.getEntry exQuery = some ⟨none, 10⟩ ∧ (5 : Nat) ≤ 10) ∧
    ((exNegLru.get exQuery 5).1 = none ∧
      (exNegLru.get exQuery 5).2.cache.getEntry exQuery = some ⟨none, 10⟩) :=
  ⟨⟨by decide, by decide⟩,
    get_current_negative_is_miss_without_evict exNegLru exQuery 10 5
      (by decide) (by decide)⟩

/-- Claim C10: `from_u16` inverts `u16::from` on the five named class
variants, maps every other 16-bit value to the unknown-class error (so in
particular the `OPT` variant is never produced by `from_u16`, although
`u16::from(OPT v) = v`). -/
theorem from_u16_inverts_to_u16_and_rejects_unknown (v : Nat)
    (hv : v < 65536) (h1 : v ≠ 1) (h3 : v ≠ 3) (h4 : v ≠ 4)
    (h254 : v ≠ 254) (h255 : v ≠ 255) :
    DNSClass.from_u16 (DNSClass.to_u16 .IN) = .ok .IN ∧
    DNSClass.from_u16 (DNSClass.to_u16 .CH) = .ok .CH ∧
    DNSClass.from_u16 (DNSClass.to_u16 .HS) = .ok .HS ∧
    DNSClass.from_u16 (DNSClass.to_u16 .NONE) = .ok .NONE ∧
    DNSClass.from_u16 (DNSClass.to_u16 .ANY) = .ok .ANY ∧
    DNSClass.to_u16 (.OPT v) = v ∧
    DNSClass.from_u16 v = .error (.unknownDnsClassValue v) := by
  refine ⟨by decide, by decide, by decide, by decide, by decide, rfl, ?_⟩
  unfold DNSClass.from_u16
  rw [if_neg h1, if_neg h3, if_neg h4, if_neg h254, if_neg h255]

theorem from_u16_inverts_to_u16_and_rejects_unknown_witness :
    ((2 : Nat) < 65536 ∧ (2 : Nat) ≠ 1 ∧ (2 : Nat) ≠ 3 ∧ (2 : Nat) ≠ 4 ∧
      (2 : Nat) ≠ 254 ∧ (2 : Nat) ≠ 255) ∧
    (DNSClass.from_u16 (DNSClass.to_u16 .IN) = .ok .IN ∧
    DNSClass.from_u16 (DNSClass.to_u16 .CH) = .ok .CH ∧
    DNSClass.from_u16 (DNSClass.to_u16 .HS) = .ok .HS ∧
    DNSClass.from_u16 (DNSClass.to_u16 .NONE) = .ok .NONE ∧
    DNSClass.from_u16 (DNSClass.to_u16 .ANY) = .ok .ANY ∧
    DNSClass.to_u16 (.OPT 2) = 2 ∧
    DNSClass.from_u16 2 = .error (.unknownDnsClassValue 2)) :=
  ⟨⟨by decide, by decide, by decide, by decide, by decide, by decide⟩,
    from_u16_inverts_to_u16_and_rejects_unknown 2 (by decide) (by decide)
      (by decide) (by decide) (by decide) (by decide)⟩
